import Mathlib

/-!
Verification development for the logistar-turnover backend
(`src/backend/services/sync_service.py`, `src/backend/services/wms_client.py`,
`src/backend/services/analytics.py`, `src/backend/build_daily_summary.py`).

Shallow embedding conventions:
* Python `datetime.date` / `datetime.datetime` values are modelled by the
  `Date` / `DateTime` structures below (Gregorian calendar fields).
* Python floats are modelled as exact rationals (`ℚ`); `round(x, n)` is
  modelled by exact round-half-to-even on the rational value.
* Dynamic Python values reaching the numeric coercion helpers are modelled
  by `PyVal` (None, str, int, float); `float("inf")`/`float("nan")` literals
  are outside the model.
* SQL `NULL` is modelled by `Option`; SQL `SUM` ignores NULLs and returns
  NULL on an empty/all-NULL input, `COALESCE(SUM(..), 0)` therefore becomes
  a plain sum over the present values.
-/

section TurnoverModel

/- The Batteries rational-number operations are `@[irreducible]`, which blocks
`decide` on concrete rational computations; restore default reducibility for
the scope of this development (the kernel ignores reducibility anyway). -/
attribute [local semireducible] Rat.mul Rat.inv Rat.add Rat.sub Rat.ofScientific

/-- Calendar date (models Python `datetime.date` and SQLite `DATE` values). -/
structure Date where
  year : ℕ
  month : ℕ
  day : ℕ
deriving DecidableEq, Repr

/-- Numeric key giving the SQLite `DATE`-string comparison order on valid dates. -/
def Date.key (d : Date) : ℕ := d.year * 10000 + d.month * 100 + d.day

/-- Timestamp (models Python `datetime.datetime` without timezone). -/
structure DateTime where
  date : Date
  hour : ℕ
  minute : ℕ
  second : ℕ
deriving DecidableEq, Repr

/-- Leap-year test of the Gregorian calendar (as `calendar.isleap`). -/
def isLeapYear (y : ℕ) : Bool := (y % 4 = 0 && y % 100 ≠ 0) || y % 400 = 0

/-- Number of days in a month, used by the `strptime` model to validate days. -/
def daysInMonth (y m : ℕ) : ℕ :=
  if m = 2 then (if isLeapYear y then 29 else 28)
  else if m = 4 ∨ m = 6 ∨ m = 9 ∨ m = 11 then 30
  else 31

/-- Value of a decimal digit character. -/
def digitVal (c : Char) : ℕ := c.toNat - 48

/-- Numeric value of a list of decimal digit characters. -/
def digitsVal (l : List Char) : ℕ := l.foldl (fun a c => a * 10 + digitVal c) 0

/-- Model of `datetime.strptime(val, "%Y-%m-%d %H:%M:%S")`: strict
`YYYY-MM-DD HH:MM:SS` shape with field-range validation (month 1–12, day
valid for the month, hour < 24, minute/second < 60, year ≥ 1).
`none` models the `ValueError` raised on any mismatch. -/
def strptime19 (s : String) : Option DateTime :=
  match s.data with
  | [y1, y2, y3, y4, c1, m1, m2, c2, d1, d2, c3, h1, h2, c4, n1, n2, c5, s1, s2] =>
    if (y1.isDigit && y2.isDigit && y3.isDigit && y4.isDigit &&
        m1.isDigit && m2.isDigit && d1.isDigit && d2.isDigit &&
        h1.isDigit && h2.isDigit && n1.isDigit && n2.isDigit &&
        s1.isDigit && s2.isDigit &&
        c1 = '-' && c2 = '-' && c3 = ' ' && c4 = ':' && c5 = ':') then
      let y := digitsVal [y1, y2, y3, y4]
      let mo := digitsVal [m1, m2]
      let d := digitsVal [d1, d2]
      let h := digitsVal [h1, h2]
      let mi := digitsVal [n1, n2]
      let se := digitsVal [s1, s2]
      if 1 ≤ y ∧ 1 ≤ mo ∧ mo ≤ 12 ∧ 1 ≤ d ∧ d ≤ daysInMonth y mo ∧
         h ≤ 23 ∧ mi ≤ 59 ∧ se ≤ 59 then
        some ⟨⟨y, mo, d⟩, h, mi, se⟩
      else none
    else none
  | _ => none

/-- Model of Python `str.startswith`: list-of-chars prefix test
(first argument is the candidate prefix). -/
def charsLeadWith : List Char → List Char → Bool
  | [], _ => true
  | _ :: _, [] => false
  | a :: as, b :: bs => a = b && charsLeadWith as bs

/-- Model of Python `str.startswith` on strings. -/
def pyStartsWith (s pat : String) : Bool := charsLeadWith pat.data s.data

/-- Model of the whitespace stripping Python `float(s)`/`int(s)` perform. -/
def pyStrip (s : String) : List Char :=
  ((s.data.dropWhile Char.isWhitespace).reverse.dropWhile Char.isWhitespace).reverse

/-- `sync_service._parse_dt`: parse a WMS datetime string, `None` for
falsy/zero-sentinel values and for strings `strptime` rejects. -/
def _parse_dt (val : String) : Option DateTime :=
  if val = "" ∨ pyStartsWith val "0000" then none
  else strptime19 val

/-- Dynamic Python value as it reaches the coercion helpers. -/
inductive PyVal where
  | vNone
  | vStr (s : String)
  | vInt (n : ℤ)
  | vFloat (q : ℚ)
deriving DecidableEq, Repr

/-- Python truthiness of a `PyVal` (`bool(v)`). -/
def pyTruthy : PyVal → Bool
  | .vNone => false
  | .vStr s => s ≠ ""
  | .vInt n => n ≠ 0
  | .vFloat q => q ≠ 0

/-- Digit-run parser: `some` of the value when the list is a non-empty run
of decimal digits, else `none`. -/
def parseDigits (l : List Char) : Option ℕ :=
  if l ≠ [] ∧ l.all Char.isDigit then some (digitsVal l) else none

/-- Model of Python `int(s)` on a string: optional sign, digits only. -/
def pyParseInt (s : String) : Option ℤ :=
  match pyStrip s with
  | '+' :: rest => (parseDigits rest).map (fun n => (n : ℤ))
  | '-' :: rest => (parseDigits rest).map (fun n => -(n : ℤ))
  | l => (parseDigits l).map (fun n => (n : ℤ))

/-- Model of Python `float(s)` on a string: sign, decimal mantissa with at
least one digit, optional exponent (`inf`/`nan` literals not modelled). -/
def pyParseFloat (s : String) : Option ℚ :=
  let t0 := pyStrip s
  let sign : ℚ × List Char :=
    match t0 with
    | '+' :: r => (1, r)
    | '-' :: r => (-1, r)
    | r => (1, r)
  let ip := sign.2.takeWhile Char.isDigit
  let t1 := sign.2.dropWhile Char.isDigit
  let fr : List Char × List Char :=
    match t1 with
    | '.' :: r => (r.takeWhile Char.isDigit, r.dropWhile Char.isDigit)
    | r => ([], r)
  let fp := fr.1
  let t2 := fr.2
  if ip = [] ∧ fp = [] then none
  else
    let mant : ℚ := (digitsVal ip : ℚ) + (digitsVal fp : ℚ) / (10 : ℚ) ^ fp.length
    match t2 with
    | [] => some (sign.1 * mant)
    | 'e' :: r | 'E' :: r =>
      let es : ℤ × List Char :=
        match r with
        | '+' :: r2 => (1, r2)
        | '-' :: r2 => (-1, r2)
        | r2 => (1, r2)
      let ed := es.2.takeWhile Char.isDigit
      let rest := es.2.dropWhile Char.isDigit
      if ed = [] ∨ rest ≠ [] then none
      else some (sign.1 * mant * (10 : ℚ) ^ (es.1 * (digitsVal ed : ℤ)))
    | _ => none

/-- Truncation toward zero, the behaviour of Python `int()` on a float. -/
def pyTrunc (q : ℚ) : ℤ := if 0 ≤ q then ⌊q⌋ else -⌊-q⌋

/-- Model of Python `float(v)` on a dynamic value; `none` models the
`ValueError`/`TypeError` raised on bad input. -/
def pyFloatOfVal : PyVal → Option ℚ
  | .vNone => none
  | .vStr s => pyParseFloat s
  | .vInt n => some (n : ℚ)
  | .vFloat q => some q

/-- Model of Python `int(v)` on a dynamic value. -/
def pyIntOfVal : PyVal → Option ℤ
  | .vNone => none
  | .vStr s => pyParseInt s
  | .vInt n => some n
  | .vFloat q => some (pyTrunc q)

/-- `sync_service._safe_float`: `float(val) if val else None`, exceptions
mapped to `None`. -/
def _safe_float (val : PyVal) : Option ℚ :=
  if pyTruthy val then pyFloatOfVal val else none

/-- `sync_service._safe_int`: `int(val) if val else None`, exceptions
mapped to `None`. -/
def _safe_int (val : PyVal) : Option ℤ :=
  if pyTruthy val then pyIntOfVal val else none

/-- Round half to even to an integer, the behaviour of Python `round`
(modelled exactly on the rational value). -/
def roundHalfEven (x : ℚ) : ℤ :=
  let f := ⌊x⌋
  let r := x - f
  if r < 1 / 2 then f
  else if 1 / 2 < r then f + 1
  else if f % 2 = 0 then f else f + 1

/-- Model of Python `round(x, n)` for floats, as exact half-even rounding
of the rational value to `n` decimal places. -/
def pyRound (n : ℕ) (x : ℚ) : ℚ := (roundHalfEven (x * 10 ^ n) : ℚ) / 10 ^ n

/-- `sync_service._calc_volume_cbm`: CBM volume from cm dimensions; `None`
when any coerced dimension is absent or zero (Python truthiness of
`l and w and h`). -/
def _calc_volume_cbm (length_cm width_cm height_cm : PyVal) : Option ℚ :=
  match _safe_float length_cm, _safe_float width_cm, _safe_float height_cm with
  | some l, some w, some h =>
    if l ≠ 0 ∧ w ≠ 0 ∧ h ≠ 0 then some (pyRound 6 (l * w * h / 1000000))
    else none
  | _, _, _ => none

example : _parse_dt "2024-01-01 10:00:00" =
    some ⟨⟨2024, 1, 1⟩, 10, 0, 0⟩ := by decide
example : _parse_dt "0000-00-00 00:00:00" = none := by decide
example : _parse_dt "garbage" = none := by decide
example : _safe_int (.vStr "42") = some 42 := by decide
example : _safe_int (.vStr "x42") = none := by decide
example : _safe_int (.vInt 0) = none := by decide
example : _safe_float (.vStr "2.5") = some (5 / 2) := by decide
example : _calc_volume_cbm (.vStr "100") (.vStr "100") (.vStr "100") =
    some 1 := by decide
example : _calc_volume_cbm (.vStr "0") (.vStr "100") (.vStr "100") =
    none := by decide

/-- `config.Settings.INBOUND_OPERATION_TYPES`. -/
def INBOUND_OPS : List String := ["上架"]

/-- `config.Settings.OUTBOUND_OPERATION_TYPES`. -/
def OUTBOUND_OPS : List String := ["订单签出", "FBA签出"]

/-- `SyncService._classify_direction`. -/
def _classify_direction (operation_type : String) : String :=
  if operation_type ∈ INBOUND_OPS then "inbound"
  else if operation_type ∈ OUTBOUND_OPS then "outbound"
  else "other"

/-- Python `str(v)` for the dynamic values that reach
`str(raw.get("warehouse_id", ""))` (float repr simplified, not used by any
claim). -/
def pyStr : PyVal → String
  | .vNone => "None"
  | .vStr s => s
  | .vInt n => toString n
  | .vFloat q => toString q

/-- One raw WMS inventory-log record (the JSON dict fields read by
`sync_inventory_logs`); `none` models a missing key. String-typed fields are
kept as strings, fields fed to `str`/`_safe_int` keep the dynamic value. -/
structure RawRecord where
  ref_no : Option String := none
  reference_no : Option String := none
  product_barcode : Option String := none
  warehouse_id : Option PyVal := none
  quantity : Option PyVal := none
  receiving_code : Option String := none
  ibl_add_time : Option String := none
  ibl_note : Option String := none
  customer_code : Option String := none
  tracking_number : Option String := none
  warehouse_operation_time : Option String := none
  operation_type : Option String := none
  inventory_type : Option PyVal := none
  inventory_type_name : Option String := none
  inventory_status : Option PyVal := none
  user_name : Option String := none
deriving DecidableEq, Repr

/-- One `inventory_logs` row — the `values` dict built in
`sync_inventory_logs` (`models.InventoryLog` columns). -/
structure EventRow where
  ref_no : String
  reference_no : Option String
  product_barcode : String
  warehouse_id : String
  quantity : Option ℤ
  receiving_code : Option String
  ibl_add_time : Option DateTime
  ibl_note : Option String
  customer_code : Option String
  tracking_number : Option String
  warehouse_operation_time : Option DateTime
  operation_type : String
  inventory_type : Option ℤ
  inventory_type_name : Option String
  inventory_status : Option ℤ
  user_name : Option String
  direction : String
deriving DecidableEq, Repr

/-- The Event Normalizer: the `values` dict construction inside the batch
loop of `SyncService.sync_inventory_logs`. -/
def normalizeEvent (raw : RawRecord) : EventRow :=
  let op_type := raw.operation_type.getD ""
  { ref_no := raw.ref_no.getD ""
    reference_no := raw.reference_no
    product_barcode := raw.product_barcode.getD ""
    warehouse_id := pyStr (raw.warehouse_id.getD (.vStr ""))
    quantity := _safe_int (raw.quantity.getD .vNone)
    receiving_code := raw.receiving_code
    ibl_add_time := _parse_dt (raw.ibl_add_time.getD "")
    ibl_note := raw.ibl_note
    customer_code := raw.customer_code
    tracking_number := raw.tracking_number
    warehouse_operation_time := _parse_dt (raw.warehouse_operation_time.getD "")
    operation_type := op_type
    inventory_type := _safe_int (raw.inventory_type.getD .vNone)
    inventory_type_name := raw.inventory_type_name
    inventory_status := _safe_int (raw.inventory_status.getD .vNone)
    user_name := raw.user_name
    direction := _classify_direction op_type }

/-- The idempotency-key triple of the upsert:
`(InventoryLog.ref_no, InventoryLog.product_barcode, InventoryLog.ibl_add_time)`. -/
def eventKey (e : EventRow) : String × String × Option DateTime :=
  (e.ref_no, e.product_barcode, e.ibl_add_time)

/-- SQLite conflict test for the unique index behind
`ON CONFLICT (ref_no, product_barcode, ibl_add_time) DO UPDATE`: a stored row
conflicts with an incoming row when the indexed columns compare equal; a SQL
`NULL` (`ibl_add_time IS NULL`) never compares equal, so rows with an absent
`ibl_add_time` never conflict. -/
def conflictsWith (r e : EventRow) : Bool :=
  eventKey r = eventKey e ∧ e.ibl_add_time ≠ none

/-- The Event Store upsert
(`sqlite_upsert(InventoryLog).values(**values).on_conflict_do_update(...)`):
on conflict, every non-key column of the stored row is set to the incoming
value (the key columns already compare equal, so the stored row becomes the
incoming row); otherwise the row is inserted. -/
def upsertEvent (store : List EventRow) (e : EventRow) : List EventRow :=
  if store.any (fun r => conflictsWith r e) then
    store.map (fun r => if conflictsWith r e then e else r)
  else store ++ [e]

/-- Applying a whole batch of normalized events in order
(the inner loop of `sync_inventory_logs`). -/
def upsertBatch (store : List EventRow) (batch : List RawRecord) : List EventRow :=
  batch.foldl (fun s raw => upsertEvent s (normalizeEvent raw)) store

/-- One `products` row (the `models.Product` columns the rollup join reads:
the unique barcode and the computed unit volume). -/
structure ProductRow where
  product_barcode : String
  volume_cbm : Option ℚ
deriving DecidableEq, Repr

/-- SQL `SUM` over a column: `NULL`s are ignored; an empty or all-`NULL`
input yields `NULL`. -/
def sqlSum {α : Type} [AddCommMonoid α] (l : List (Option α)) : Option α :=
  let present := l.filterMap id
  if present.isEmpty then none else some present.sum

/-- One `invlog_daily_summary` row (schema from `build_daily_summary.py`;
`total_qty` / `total_volume_cbm` keep SQL `NULL`-ability from `SUM`). -/
structure SummaryRow where
  summary_date : Date
  warehouse_id : String
  direction : String
  customer_code : String
  event_count : ℕ
  total_qty : Option ℤ
  total_volume_cbm : Option ℚ
  unique_skus : ℕ
deriving DecidableEq, Repr

/-- The rollup's `WHERE` clause:
`direction IN ('inbound','outbound') AND warehouse_operation_time IS NOT NULL`. -/
def rollupMatch (e : EventRow) : Bool :=
  (e.direction == "inbound" || e.direction == "outbound") &&
    e.warehouse_operation_time.isSome

/-- The rollup's `GROUP BY` key:
`(DATE(warehouse_operation_time), warehouse_id, direction,
COALESCE(customer_code, 'UNKNOWN'))`. The date default never fires on rows
passing `rollupMatch`. -/
def groupKey (e : EventRow) : Date × String × String × String :=
  ((e.warehouse_operation_time.map DateTime.date).getD ⟨0, 0, 0⟩,
   e.warehouse_id, e.direction, e.customer_code.getD "UNKNOWN")

/-- `LEFT JOIN products p ON il.product_barcode = p.product_barcode` followed
by `COALESCE(p.volume_cbm, 0)` (the barcode column is unique, so the join
matches at most one product row). -/
def joinedVolume (products : List ProductRow) (e : EventRow) : ℚ :=
  ((products.find? (fun p => p.product_barcode == e.product_barcode)).bind
    ProductRow.volume_cbm).getD 0

/-- The aggregate `SELECT` list applied to one group of events. -/
def mkSummaryRow (products : List ProductRow) (k : Date × String × String × String)
    (rows : List EventRow) : SummaryRow :=
  { summary_date := k.1
    warehouse_id := k.2.1
    direction := k.2.2.1
    customer_code := k.2.2.2
    event_count := rows.length
    total_qty := sqlSum (rows.map EventRow.quantity)
    total_volume_cbm :=
      sqlSum (rows.map (fun e => e.quantity.map (fun q => (q : ℚ) * joinedVolume products e)))
    unique_skus := (rows.map EventRow.product_barcode).dedup.length }

/-- `SyncService.rebuild_daily_summary` / `build_daily_summary.build_summary`:
delete everything, then `INSERT ... SELECT` one row per group of the filtered
event store. -/
def rebuild_daily_summary (store : List EventRow) (products : List ProductRow) :
    List SummaryRow :=
  let filtered := store.filter rollupMatch
  ((filtered.map groupKey).dedup).map
    (fun k => mkSummaryRow products k (filtered.filter (fun e => decide (groupKey e = k))))

/-- The group key recorded on a produced summary row. -/
def rowKey (r : SummaryRow) : Date × String × String × String :=
  (r.summary_date, r.warehouse_id, r.direction, r.customer_code)

/-- Python truthiness applied to an optional string filter argument
(`if warehouse_id: ...` skips the filter for `None` and for `""`). -/
def strFilter (o : Option String) : Option String :=
  o.bind (fun s => if s = "" then none else some s)

/-- `analytics.invlog_turnover`'s `WHERE` clause: direction restricted to
inbound/outbound, then the ceiling date filter and the dimension filters
(`date_from` is handled by `CASE`, not by `WHERE`). -/
def turnoverRows (summary : List SummaryRow) (date_to : Option Date)
    (warehouse_id customer_code : Option String) : List SummaryRow :=
  summary.filter (fun r =>
    (r.direction == "inbound" || r.direction == "outbound") &&
    (match date_to with
     | some d => r.summary_date.key ≤ d.key
     | none => true) &&
    (match strFilter warehouse_id with
     | some w => r.warehouse_id == w
     | none => true) &&
    (match strFilter customer_code with
     | some c => r.customer_code == c
     | none => true))

/-- One `COALESCE(SUM(CASE (direction = dir, CASE (cond, field, 0)), 0), 0)`
aggregate of the turnover query: a row contributes its (possibly `NULL`)
field when direction and condition match, literal `0` otherwise; `SUM` skips
`NULL`s and the outer `COALESCE` turns an empty sum into `0`. -/
def caseSum {α : Type} [AddCommMonoid α] (rows : List SummaryRow) (dir : String)
    (cond : SummaryRow → Bool) (field : SummaryRow → Option α) : α :=
  ((rows.map (fun r => if r.direction = dir ∧ cond r = true then field r else some 0)).filterMap
    id).sum

/-- The intermediate values of `analytics.invlog_turnover` (the six query
aggregates and the Python arithmetic on them, before rounding). -/
structure TurnoverCore where
  in_qty : ℤ
  out_qty : ℤ
  in_vol : ℚ
  out_vol : ℚ
  pre_in_vol : ℚ
  pre_out_vol : ℚ
  beginning_inv_vol : ℚ
  ending_inv_vol : ℚ
  avg_inventory_vol : ℚ
  turnover_rate : ℚ
deriving Repr

/-- `analytics.invlog_turnover`, computation part: the `CASE`-based sums over
the summary table and the turnover arithmetic
(`avg = max((beginning + ending) / 2, 0.001)`;
`rate = out_vol / avg if avg > 0 else 0`). -/
def turnoverCore (summary : List SummaryRow) (date_from date_to : Option Date)
    (warehouse_id customer_code : Option String) : TurnoverCore :=
  let rows := turnoverRows summary date_to warehouse_id customer_code
  let inPeriod : SummaryRow → Bool := fun r =>
    match date_from with
    | some d => decide (d.key ≤ r.summary_date.key)
    | none => true
  let prePeriod : SummaryRow → Bool := fun r =>
    match date_from with
    | some d => decide (r.summary_date.key < d.key)
    | none => false
  let in_vol := caseSum rows "inbound" inPeriod SummaryRow.total_volume_cbm
  let out_vol := caseSum rows "outbound" inPeriod SummaryRow.total_volume_cbm
  let pre_in_vol := caseSum rows "inbound" prePeriod SummaryRow.total_volume_cbm
  let pre_out_vol := caseSum rows "outbound" prePeriod SummaryRow.total_volume_cbm
  let beginning := pre_in_vol - pre_out_vol
  let ending := beginning + in_vol - out_vol
  let avg := max ((beginning + ending) / 2) (1 / 1000)
  { in_qty := caseSum rows "inbound" inPeriod SummaryRow.total_qty
    out_qty := caseSum rows "outbound" inPeriod SummaryRow.total_qty
    in_vol := in_vol
    out_vol := out_vol
    pre_in_vol := pre_in_vol
    pre_out_vol := pre_out_vol
    beginning_inv_vol := beginning
    ending_inv_vol := ending
    avg_inventory_vol := avg
    turnover_rate := if avg > 0 then out_vol / avg else 0 }

/-- Number of days from a fixed epoch (proleptic Gregorian), used only for
the `days_in_period` field (`(date_to - date_from).days`). -/
def Date.toSerial (d : Date) : ℕ :=
  365 * (d.year - 1) + ((d.year - 1) / 4 - (d.year - 1) / 100 + (d.year - 1) / 400) +
    (List.range (d.month - 1)).foldl (fun acc i => acc + daysInMonth d.year (i + 1)) 0 +
    d.day

/-- The result dict returned by `analytics.invlog_turnover` (fields rounded
as in the source). -/
structure TurnoverResult where
  total_inbound_qty : ℤ
  total_outbound_qty : ℤ
  total_inbound_vol : ℚ
  total_outbound_vol : ℚ
  beginning_inventory_vol : ℚ
  ending_inventory_vol : ℚ
  average_inventory_vol : ℚ
  turnover_rate : ℚ
  days_in_period : Option ℤ
deriving DecidableEq, Repr

/-- `analytics.invlog_turnover` (date arguments passed as calendar dates, the
form the code normalizes datetimes to). -/
def invlog_turnover (summary : List SummaryRow) (date_from date_to : Option Date)
    (warehouse_id customer_code : Option String) : TurnoverResult :=
  let c := turnoverCore summary date_from date_to warehouse_id customer_code
  { total_inbound_qty := c.in_qty
    total_outbound_qty := c.out_qty
    total_inbound_vol := pyRound 4 c.in_vol
    total_outbound_vol := pyRound 4 c.out_vol
    beginning_inventory_vol := pyRound 4 c.beginning_inv_vol
    ending_inventory_vol := pyRound 4 c.ending_inv_vol
    average_inventory_vol := pyRound 4 c.avg_inventory_vol
    turnover_rate := pyRound 4 c.turnover_rate
    days_in_period :=
      match date_from, date_to with
      | some a, some b => some ((b.toSerial : ℤ) - (a.toSerial : ℤ))
      | _, _ => none }

/-- The in-memory query cache of `analytics` (`_cache : key → (expiry, value)`,
insertion-ordered as a Python dict). -/
structure CacheState (V : Type) where
  entries : List (String × ℚ × V)
deriving Repr

/-- `analytics._cache_get` (value part): an entry is returned only while
`expiry > now`; an expired hit is treated as a miss (and dropped). -/
def _cache_get {V : Type} (c : CacheState V) (key : String) (now : ℚ) : Option V :=
  match c.entries.find? (fun e => e.1 == key) with
  | some (_, expiry, v) => if now < expiry then some v else none
  | none => none

/-- `analytics._cache_set`: store `(now + ttl, value)` under the key, then
opportunistically purge expired entries when the dict exceeds 500 keys. -/
def _cache_set {V : Type} (c : CacheState V) (key : String) (v : V) (now ttl : ℚ) :
    CacheState V :=
  let entries := c.entries.filter (fun e => e.1 ≠ key) ++ [(key, now + ttl, v)]
  if entries.length > 500 then ⟨entries.filter (fun e => now < e.2.1)⟩ else ⟨entries⟩

/-- Shared state seen by the Rollup Builder and the Analytics Query Layer:
the `invlog_daily_summary` table and the module-level `_cache`. -/
structure AnalyticsState (V : Type) where
  summary : List SummaryRow
  cache : CacheState V

/-- `SyncService.rebuild_daily_summary` as a state transition: the summary
table is deleted and re-derived from the event store (committed), and then
`_cache.clear()` empties the whole query cache. -/
def rebuildSummaryState {V : Type} (store : List EventRow) (products : List ProductRow)
    (_st : AnalyticsState V) : AnalyticsState V :=
  { summary := rebuild_daily_summary store products, cache := ⟨[]⟩ }

/-- The get-or-compute-and-store shape wrapping each analytics read
(`cached = _cache_get(ck); ...; _cache_set(ck, result)`). -/
def cachedRead {V : Type} (compute : List SummaryRow → V) (st : AnalyticsState V)
    (key : String) (now ttl : ℚ) : V × AnalyticsState V :=
  match _cache_get st.cache key now with
  | some v => (v, st)
  | none =>
    let v := compute st.summary
    (v, { st with cache := _cache_set st.cache key v now ttl })

/-- One visible version of a `sync_logs` audit row (`models.SyncLog`). -/
structure SyncLogRec where
  sync_type : String
  status : String
  records_synced : Option ℕ
  error_message : Option String
  finished_at : Option ℚ
deriving DecidableEq, Repr

/-- The audit row as created at the start of `sync_inventory_logs`. -/
def initialSyncLog : SyncLogRec :=
  { sync_type := "inventory_log", status := "running",
    records_synced := none, error_message := none, finished_at := none }

/-- The successive committed versions of the one `SyncLog` row written by
`SyncService.sync_inventory_logs`: created as `running`; on fetch/upsert
failure committed once as `failed`; on success committed as `success` (with
the count and finish time) and then `rebuild_daily_summary` runs — if that
raises, the `except` block overwrites the same row as `failed` and commits
again. `fetch` models the outcome of the chunked fetch plus batch upserts,
`rebuild` the outcome of the rollup rebuild, `t` the finish time. -/
def syncRunTrace (fetch : Except String (List RawRecord))
    (rebuild : Except String Unit) (t : ℚ) : List SyncLogRec :=
  match fetch with
  | .error e =>
    let failed : SyncLogRec :=
      { initialSyncLog with
          status := "failed"
          error_message := some e
          finished_at := some t }
    [initialSyncLog, failed]
  | .ok raws =>
    let success : SyncLogRec :=
      { initialSyncLog with
          status := "success"
          records_synced := some raws.length
          finished_at := some t }
    match rebuild with
    | .ok _ => [initialSyncLog, success]
    | .error e =>
      let failed : SyncLogRec :=
        { success with
            status := "failed"
            error_message := some e
            finished_at := some t }
      [initialSyncLog, success, failed]

/-- One WMS list-endpoint response: a record page plus the reported
`totalCount`. -/
structure PageResp (α : Type) where
  data : List α
  totalCount : ℕ
deriving Repr

/-- The pagination loop shared by `get_all_products` / `get_all_orders` /
`get_all_receivings`: request page 1, 2, … sequentially, extend the
accumulator, stop when `len(all_data) >= total or not data`. The loop also
returns the pages requested; `fuel` bounds the iterations so the model is
total (`none` = fuel exhausted, which the termination theorems rule out). -/
def getAllLoop {α : Type} (resp : ℕ → PageResp α) :
    ℕ → ℕ → List α → List ℕ → Option (List α × List ℕ)
  | 0, _, _, _ => none
  | fuel + 1, page, acc, pages =>
    let r := resp page
    let acc2 := acc ++ r.data
    let pages2 := pages ++ [page]
    if r.totalCount ≤ acc2.length ∨ r.data.isEmpty = true then some (acc2, pages2)
    else getAllLoop resp fuel (page + 1) acc2 pages2

/-- `WMSClient.get_all_products` (and structurally `get_all_orders` /
`get_all_receivings`): run the pagination loop from page 1 with an empty
accumulator. -/
def get_all_products {α : Type} (resp : ℕ → PageResp α) (fuel : ℕ) :
    Option (List α × List ℕ) :=
  getAllLoop resp fuel 1 [] []

/-- A faithful paginated source: serving the master list `L` with page size
`s`, every page request returns the corresponding slice of `L` and reports
`totalCount = len(L)`. -/
def segResp {α : Type} (L : List α) (s : ℕ) (page : ℕ) : PageResp α :=
  { data := (L.drop ((page - 1) * s)).take s, totalCount := L.length }

/-- Modelled from the spec: `WMSClient.get_inventory_logs_chunked` is called
from `SyncService.sync_inventory_logs` (line 143) but its definition is
absent from the source tree. Per the spec (§4.1), the fetcher must split the
requested range into consecutive non-overlapping chunks no wider than the
6-month limit and fetch each chunk fully before advancing. Time instants are
modelled as integers (e.g. epoch seconds) and the limit as a width `W`. -/
def chunkLoop (W : ℤ) : ℕ → ℤ → ℤ → List (ℤ × ℤ)
  | 0, _, _ => []
  | fuel + 1, start, fin =>
    if start < fin then
      (start, min (start + W) fin) :: chunkLoop W fuel (min (start + W) fin) fin
    else []

/-- The chunk list for a requested span (the fuel `(fin - start).toNat` never
runs out: every chunk advances the cursor by at least one). -/
def chunkSpans (W start fin : ℤ) : List (ℤ × ℤ) :=
  chunkLoop W (fin - start).toNat start fin

/-- The 6-month range limit of the WMS inventoryLog API, as a width in epoch
seconds (modelled from the spec; 6 × 30 days). -/
def sixMonthsWidth : ℤ := 6 * 30 * 86400

example : chunkSpans 10 0 25 = [(0, 10), (10, 20), (20, 25)] := by decide
example : get_all_products (segResp [10, 20, 30] 2) 3 =
    some ([10, 20, 30], [1, 2]) := by decide
example : _classify_direction "上架" = "inbound" := by decide
example : _classify_direction "订单签出" = "outbound" := by decide
example : _classify_direction "misc" = "other" := by decide

/-- Claim C9: for every raw record, normalization never raises — an invalid
or zero-sentinel timestamp string parses to absent (`None`) rather than an
error, a non-numeric quantity or dimension value coerces to absent rather
than throwing, and the row proceeds with those absent fields. -/
theorem C9_normalizer_tolerance :
    (_parse_dt "" = none) ∧
    (∀ s : String, pyStartsWith s "0000" = true → _parse_dt s = none) ∧
    (∀ s : String, strptime19 s = none → _parse_dt s = none) ∧
    (∀ v : PyVal, pyIntOfVal v = none → _safe_int v = none) ∧
    (∀ v : PyVal, pyFloatOfVal v = none → _safe_float v = none) ∧
    (∀ raw : RawRecord,
      (normalizeEvent raw).ibl_add_time = _parse_dt (raw.ibl_add_time.getD "") ∧
      (normalizeEvent raw).warehouse_operation_time =
        _parse_dt (raw.warehouse_operation_time.getD "") ∧
      (normalizeEvent raw).quantity = _safe_int (raw.quantity.getD .vNone)) := by
  refine ⟨by decide, ?_, ?_, ?_, ?_, ?_⟩
  · intro s hs
    simp [_parse_dt, hs]
  · intro s hs
    by_cases h : s = "" ∨ pyStartsWith s "0000" = true
    · simp [_parse_dt, h]
    · simp only [_parse_dt]
      rw [if_neg]
      · exact hs
      · simpa using h
  · intro v hv
    by_cases h : pyTruthy v = true <;> simp [_safe_int, h, hv]
  · intro v hv
    by_cases h : pyTruthy v = true <;> simp [_safe_float, h, hv]
  · intro raw
    exact ⟨rfl, rfl, rfl⟩

/-- Witness for C9 at concrete inputs: the zero-sentinel timestamp and a
non-numeric quantity both normalize to absent values. -/
theorem C9_normalizer_tolerance_witness :
    _parse_dt "0000-00-00 00:00:00" = none ∧
    _safe_int (.vStr "ten") = none := by
  refine ⟨C9_normalizer_tolerance.2.1 "0000-00-00 00:00:00" (by decide),
          C9_normalizer_tolerance.2.2.2.1 (.vStr "ten") (by decide)⟩

/-- Claim C10: inputs that are numerically zero, the empty string or `None`
coerce to absent (`None`) rather than `0` in `_safe_int` / `_safe_float`;
`_calc_volume_cbm` is absent whenever any dimension is absent or zero; and an
event whose raw quantity is zero is stored with an absent quantity. -/
theorem C10_zero_coerces_to_absent :
    (_safe_int (.vInt 0) = none ∧ _safe_int (.vFloat 0) = none ∧
     _safe_int (.vStr "") = none ∧ _safe_int .vNone = none) ∧
    (_safe_float (.vInt 0) = none ∧ _safe_float (.vFloat 0) = none ∧
     _safe_float (.vStr "") = none ∧ _safe_float .vNone = none) ∧
    (∀ l w h : PyVal,
      _safe_float l = none ∨ _safe_float l = some 0 ∨
      _safe_float w = none ∨ _safe_float w = some 0 ∨
      _safe_float h = none ∨ _safe_float h = some 0 →
      _calc_volume_cbm l w h = none) ∧
    (∀ raw : RawRecord, raw.quantity = some (.vInt 0) →
      (normalizeEvent raw).quantity = none) := by
  refine ⟨by decide, by decide, ?_, ?_⟩
  · intro l w h hd
    simp only [_calc_volume_cbm]
    cases h1 : _safe_float l with
    | none => rfl
    | some lv =>
      cases h2 : _safe_float w with
      | none => rfl
      | some wv =>
        cases h3 : _safe_float h with
        | none => rfl
        | some hv =>
          simp only [h1, h2, h3, Option.some.injEq, reduceCtorEq, false_or] at hd
          rcases hd with rfl | rfl | rfl <;> simp
  · intro raw hq
    simp [normalizeEvent, hq]
    decide

/-- Witness for C10 at concrete inputs: the string dimension "0" coerces to
a zero float, which yields an absent unit volume; a raw quantity of `0` is
stored absent. -/
theorem C10_zero_coerces_to_absent_witness :
    _calc_volume_cbm (.vStr "0") (.vStr "100") (.vStr "100") = none ∧
    (normalizeEvent { quantity := some (.vInt 0) }).quantity = none := by
  refine ⟨C10_zero_coerces_to_absent.2.2.1 _ _ _ (Or.inr (Or.inl (by decide))),
          C10_zero_coerces_to_absent.2.2.2 _ rfl⟩

/-- When the incoming row's `ibl_add_time` is present, the SQLite conflict
test is exactly equality of the key triples. -/
theorem conflictsWith_iff (r e : EventRow) (h : e.ibl_add_time ≠ none) :
    conflictsWith r e = true ↔ eventKey r = eventKey e := by
  simp [conflictsWith, h]

/-- Updating the conflicting rows rewrites every key-matching row to the
incoming row and nothing else (stated on the `DO UPDATE` branch body). -/
theorem upsert_filter_key (s : List EventRow) (e : EventRow) (h : e.ibl_add_time ≠ none) :
    (s.map (fun r => if conflictsWith r e then e else r)).filter
        (fun r => decide (eventKey r = eventKey e)) =
      (s.filter (fun r => decide (eventKey r = eventKey e))).map (fun _ => e) := by
  induction s with
  | nil => rfl
  | cons a t ih =>
    by_cases hk : eventKey a = eventKey e
    · have hc : conflictsWith a e = true := (conflictsWith_iff a e h).mpr hk
      simp [hc, hk, ih]
    · have hc : conflictsWith a e = false := by
        rw [← Bool.not_eq_true]
        exact fun hh => hk ((conflictsWith_iff a e h).mp hh)
      simp [hc, hk, ih]

/-- A raw record whose `ibl_add_time` is the WMS zero sentinel; it
normalizes to an absent timestamp. -/
def rawDup : RawRecord :=
  { ref_no := some "A1"
    product_barcode := some "X"
    ibl_add_time := some "0000-00-00 00:00:00"
    operation_type := some "上架"
    quantity := some (.vStr "10") }

/-- Counterexample to claim C1 as stated: ingesting the same raw record
twice leaves two stored rows, not one, because its zero-sentinel
`ibl_add_time` normalizes to SQL `NULL` and SQLite unique indexes treat
`NULL`s as distinct, so the `ON CONFLICT` clause never fires. -/
theorem C1_counterexample :
    (upsertBatch [] [rawDup, rawDup]).length = 2 ∧
    ¬ (upsertBatch [] [rawDup, rawDup]).length = 1 := by decide

/-- Claim C1 (amended): for events whose `ibl_add_time` is present, applying
an event whose key triple already exists rewrites that row's fields in place
and leaves the row count unchanged, and ingesting the same record twice into
a store free of its key leaves exactly one stored row holding the second
application's values. -/
theorem C1_idempotent_upsert :
    (∀ (s : List EventRow) (e : EventRow), e.ibl_add_time ≠ none →
      (∃ r ∈ s, eventKey r = eventKey e) →
      (upsertEvent s e).length = s.length ∧
      (upsertEvent s e).filter (fun r => decide (eventKey r = eventKey e)) =
        (s.filter (fun r => decide (eventKey r = eventKey e))).map (fun _ => e)) ∧
    (∀ (s : List EventRow) (e1 e2 : EventRow),
      eventKey e1 = eventKey e2 → e1.ibl_add_time ≠ none →
      (∀ r ∈ s, eventKey r ≠ eventKey e1) →
      upsertEvent (upsertEvent s e1) e2 = s ++ [e2] ∧
      (upsertEvent (upsertEvent s e1) e2).length = (upsertEvent s e1).length) := by
  constructor
  · intro s e he hex
    have hany : s.any (fun r => conflictsWith r e) = true := by
      rw [List.any_eq_true]
      obtain ⟨r, hr, hkey⟩ := hex
      exact ⟨r, hr, (conflictsWith_iff r e he).mpr hkey⟩
    constructor
    · simp [upsertEvent, hany]
    · simp only [upsertEvent, hany, if_true]
      exact upsert_filter_key s e he
  · intro s e1 e2 hkey h1 hfresh
    have hibl : e1.ibl_add_time = e2.ibl_add_time := congrArg (fun k => k.2.2) hkey
    have h2 : e2.ibl_add_time ≠ none := hibl ▸ h1
    have hnone1 : s.any (fun r => conflictsWith r e1) = false := by
      rw [← Bool.not_eq_true, List.any_eq_true]
      rintro ⟨r, hr, hc⟩
      exact hfresh r hr ((conflictsWith_iff r e1 h1).mp hc)
    have hstep1 : upsertEvent s e1 = s ++ [e1] := by
      simp [upsertEvent, hnone1]
    have hconf : conflictsWith e1 e2 = true := (conflictsWith_iff e1 e2 h2).mpr hkey
    have hany2 : (s ++ [e1]).any (fun r => conflictsWith r e2) = true := by
      rw [List.any_eq_true]
      exact ⟨e1, by simp, hconf⟩
    have hmap : ∀ (l : List EventRow), (∀ r ∈ l, eventKey r ≠ eventKey e1) →
        l.map (fun r => if conflictsWith r e2 then e2 else r) = l := by
      intro l
      induction l with
      | nil => intro _; rfl
      | cons a u ih =>
        intro hl
        have hc : conflictsWith a e2 = false := by
          rw [← Bool.not_eq_true]
          intro hh
          exact hl a (List.mem_cons_self a u)
            (by rw [hkey]; exact (conflictsWith_iff a e2 h2).mp hh)
        simp only [List.map_cons, hc, if_false]
        rw [ih (fun r hr => hl r (List.mem_cons_of_mem a hr))]
        simp
    have hstep2 : upsertEvent (s ++ [e1]) e2 = s ++ [e2] := by
      simp only [upsertEvent, hany2, if_true, List.map_append, hmap s hfresh,
        List.map_cons, List.map_nil, hconf]
    constructor
    · rw [hstep1]
      exact hstep2
    · rw [hstep1, hstep2]
      simp

/-- Witness for C1 (amended) at a concrete input: re-ingesting a record with
a parseable `ibl_add_time` leaves exactly one stored row. -/
def rawGood : RawRecord :=
  { ref_no := some "A1"
    product_barcode := some "X"
    ibl_add_time := some "2024-01-01 10:00:00"
    operation_type := some "上架"
    quantity := some (.vStr "10") }

/-- Witness for the amended C1 theorem at `rawGood`. -/
theorem C1_idempotent_upsert_witness :
    upsertEvent (upsertEvent [] (normalizeEvent rawGood)) (normalizeEvent rawGood) =
      [normalizeEvent rawGood] ∧
    (upsertEvent (upsertEvent [] (normalizeEvent rawGood)) (normalizeEvent rawGood)).length =
      (upsertEvent [] (normalizeEvent rawGood)).length := by
  have h := C1_idempotent_upsert.2 [] (normalizeEvent rawGood) (normalizeEvent rawGood)
    rfl (by decide) (by simp)
  simpa using h

/-- Claim C5: a successful rollup rebuild clears the entire query cache
after the new rollup content is committed, so a cached analytics read after
the rebuild never returns a value computed before it: the rebuilt state has
an empty cache, every lookup misses, and a read computes from the rebuilt
summary table. -/
theorem C5_cache_coherence :
    ∀ (V : Type) (store : List EventRow) (products : List ProductRow)
      (st : AnalyticsState V) (compute : List SummaryRow → V)
      (key : String) (now ttl : ℚ),
      (rebuildSummaryState store products st).cache.entries = [] ∧
      _cache_get (rebuildSummaryState store products st).cache key now = none ∧
      (cachedRead compute (rebuildSummaryState store products st) key now ttl).1 =
        compute (rebuild_daily_summary store products) := by
  intro V store products st compute key now ttl
  exact ⟨rfl, rfl, rfl⟩

/-- Number of committed non-`running` versions of the audit row in a run's
trace (how many times the record was finalized). -/
def terminalCount (tr : List SyncLogRec) : ℕ :=
  (tr.filter (fun r => decide (r.status ≠ "running"))).length

/-- Counterexample to claim C6 as stated: when the fetch/upsert phase
succeeds but the summary rebuild raises, the audit record is finalized twice
(first `success`, then overwritten `failed`), so it is mutated after its
first finalization. -/
theorem C6_counterexample :
    terminalCount (syncRunTrace (.ok []) (.error "boom") 0) = 2 ∧
    ¬ terminalCount (syncRunTrace (.ok []) (.error "boom") 0) = 1 := by decide

/-- Number of finalizations the reference behaviour performs for a given
pair of phase outcomes: two exactly when the rebuild fails after a
successful fetch, one otherwise. -/
def expectedFinalizations : Except String (List RawRecord) → Except String Unit → ℕ
  | .ok _, .error _ => 2
  | _, _ => 1

/-- Claim C6 (amended): every run's audit record is created `running`, its
final version is terminal with a finish time (`failed` carries error text),
and it is finalized exactly once — except that a rebuild failure after a
successful ingestion overwrites the already-final `success` record with
`failed`, finalizing it a second time. -/
theorem C6_syncrun_finalization :
    ∀ (fetch : Except String (List RawRecord)) (rb : Except String Unit) (t : ℚ),
      (syncRunTrace fetch rb t).head? = some initialSyncLog ∧
      initialSyncLog.status = "running" ∧
      (∃ last, (syncRunTrace fetch rb t).getLast? = some last ∧
        last.finished_at = some t ∧
        (last.status = "success" ∨
         (last.status = "failed" ∧ last.error_message ≠ none))) ∧
      terminalCount (syncRunTrace fetch rb t) = expectedFinalizations fetch rb := by
  intro fetch rb t
  cases fetch with
  | error e =>
    exact ⟨rfl, rfl, ⟨_, rfl, rfl, Or.inr ⟨rfl, by simp⟩⟩, rfl⟩
  | ok raws =>
    cases rb with
    | ok u => exact ⟨rfl, rfl, ⟨_, rfl, rfl, Or.inl rfl⟩, rfl⟩
    | error e =>
      exact ⟨rfl, rfl, ⟨_, rfl, rfl, Or.inr ⟨rfl, by simp⟩⟩, rfl⟩

/-- A `CASE` sum whose condition never holds contributes zero (every row
falls to the literal-`0` branch). -/
theorem caseSum_false {α : Type} [AddCommMonoid α] (rows : List SummaryRow)
    (dir : String) (field : SummaryRow → Option α) :
    caseSum rows dir (fun _ => false) field = 0 := by
  induction rows with
  | nil => rfl
  | cons a t ih =>
    simp only [caseSum, List.map_cons, Bool.false_eq_true, and_false, if_false,
      List.filterMap_cons, id, List.sum_cons, zero_add] at ih ⊢
    exact ih

/-- Claim C8: the average inventory volume used as the turnover denominator
is floored at the positive epsilon `0.001`, the denominator is never zero,
the rate is the exact quotient by that denominator, and with no prior
history (`date_from` absent forces an empty pre-period) the beginning
inventory volume is `0`. -/
theorem C8_turnover_division_safety :
    ∀ (s : List SummaryRow) (df dt : Option Date) (wh cc : Option String),
      1 / 1000 ≤ (turnoverCore s df dt wh cc).avg_inventory_vol ∧
      (turnoverCore s df dt wh cc).avg_inventory_vol ≠ 0 ∧
      (turnoverCore s df dt wh cc).turnover_rate =
        (turnoverCore s df dt wh cc).out_vol /
          (turnoverCore s df dt wh cc).avg_inventory_vol ∧
      (df = none → (turnoverCore s df dt wh cc).beginning_inv_vol = 0) := by
  intro s df dt wh cc
  have havg : (turnoverCore s df dt wh cc).avg_inventory_vol =
      max (((turnoverCore s df dt wh cc).beginning_inv_vol +
        (turnoverCore s df dt wh cc).ending_inv_vol) / 2) (1 / 1000) := rfl
  have h1 : 1 / 1000 ≤ (turnoverCore s df dt wh cc).avg_inventory_vol := by
    rw [havg]
    exact le_max_right _ _
  have h0 : (0 : ℚ) < (turnoverCore s df dt wh cc).avg_inventory_vol :=
    lt_of_lt_of_le (by norm_num) h1
  refine ⟨h1, ne_of_gt h0, ?_, ?_⟩
  · have hrate : (turnoverCore s df dt wh cc).turnover_rate =
        if 0 < (turnoverCore s df dt wh cc).avg_inventory_vol
        then (turnoverCore s df dt wh cc).out_vol /
          (turnoverCore s df dt wh cc).avg_inventory_vol
        else 0 := rfl
    rw [hrate, if_pos h0]
  · rintro rfl
    show caseSum (turnoverRows s dt wh cc) "inbound" (fun _ => false)
          SummaryRow.total_volume_cbm -
        caseSum (turnoverRows s dt wh cc) "outbound" (fun _ => false)
          SummaryRow.total_volume_cbm = 0
    rw [caseSum_false, caseSum_false, sub_self]

/-- Witness for C8 at a concrete input: empty summary, unbounded period. -/
theorem C8_turnover_division_safety_witness :
    (turnoverCore [] none none none none).beginning_inv_vol = 0 ∧
    1 / 1000 ≤ (turnoverCore [] none none none none).avg_inventory_vol :=
  ⟨(C8_turnover_division_safety [] none none none none).2.2.2 rfl,
   (C8_turnover_division_safety [] none none none none).1⟩

/-- A summary snapshot with period inbound volume 100 and outbound volume 60
and no rows before the period (the spec's turnover example). -/
def exSummary : List SummaryRow :=
  [{ summary_date := ⟨2024, 3, 1⟩, warehouse_id := "13", direction := "inbound",
     customer_code := "C1", event_count := 1, total_qty := some 100,
     total_volume_cbm := some 100, unique_skus := 1 },
   { summary_date := ⟨2024, 3, 2⟩, warehouse_id := "13", direction := "outbound",
     customer_code := "C1", event_count := 1, total_qty := some 60,
     total_volume_cbm := some 60, unique_skus := 1 }]

/-- Claim C3: the turnover query returns period outbound volume divided by
the average of beginning and ending inventory volume (whenever that average
is not lifted by the epsilon floor), with beginning = cumulative pre-period
inbound minus outbound volume and ending = beginning + period inbound −
period outbound; on the spec's example (inbound 100, outbound 60, no prior
history) it returns beginning 0, ending 40, average 20 and rate 3.0. -/
theorem C3_turnover_computation :
    (∀ (s : List SummaryRow) (df dt : Option Date) (wh cc : Option String),
      1 / 1000 ≤ ((turnoverCore s df dt wh cc).beginning_inv_vol +
        (turnoverCore s df dt wh cc).ending_inv_vol) / 2 →
      (invlog_turnover s df dt wh cc).turnover_rate =
        pyRound 4 ((turnoverCore s df dt wh cc).out_vol /
          (((turnoverCore s df dt wh cc).beginning_inv_vol +
            (turnoverCore s df dt wh cc).ending_inv_vol) / 2)) ∧
      (turnoverCore s df dt wh cc).beginning_inv_vol =
        (turnoverCore s df dt wh cc).pre_in_vol -
          (turnoverCore s df dt wh cc).pre_out_vol ∧
      (turnoverCore s df dt wh cc).ending_inv_vol =
        (turnoverCore s df dt wh cc).beginning_inv_vol +
          (turnoverCore s df dt wh cc).in_vol -
          (turnoverCore s df dt wh cc).out_vol) ∧
    invlog_turnover exSummary (some ⟨2024, 1, 1⟩) (some ⟨2024, 12, 31⟩) none none =
      { total_inbound_qty := 100
        total_outbound_qty := 60
        total_inbound_vol := 100
        total_outbound_vol := 60
        beginning_inventory_vol := 0
        ending_inventory_vol := 40
        average_inventory_vol := 20
        turnover_rate := 3
        days_in_period := some 365 } := by
  constructor
  · intro s df dt wh cc hge
    have havg : (turnoverCore s df dt wh cc).avg_inventory_vol =
        max (((turnoverCore s df dt wh cc).beginning_inv_vol +
          (turnoverCore s df dt wh cc).ending_inv_vol) / 2) (1 / 1000) := rfl
    have hmax : (turnoverCore s df dt wh cc).avg_inventory_vol =
        ((turnoverCore s df dt wh cc).beginning_inv_vol +
          (turnoverCore s df dt wh cc).ending_inv_vol) / 2 := by
      rw [havg]
      exact max_eq_left hge
    have h0 : (0 : ℚ) < (turnoverCore s df dt wh cc).avg_inventory_vol := by
      rw [havg]
      exact lt_of_lt_of_le (by norm_num) (le_max_right _ _)
    refine ⟨?_, rfl, rfl⟩
    have hrate : (invlog_turnover s df dt wh cc).turnover_rate =
        pyRound 4 (turnoverCore s df dt wh cc).turnover_rate := rfl
    have hr2 : (turnoverCore s df dt wh cc).turnover_rate =
        if 0 < (turnoverCore s df dt wh cc).avg_inventory_vol
        then (turnoverCore s df dt wh cc).out_vol /
          (turnoverCore s df dt wh cc).avg_inventory_vol
        else 0 := rfl
    rw [hrate, hr2, if_pos h0, hmax]
  · decide

/-- Witness for C3's general clause at the example snapshot. -/
theorem C3_turnover_computation_witness :
    1 / 1000 ≤
      ((turnoverCore exSummary (some ⟨2024, 1, 1⟩) (some ⟨2024, 12, 31⟩) none
          none).beginning_inv_vol +
        (turnoverCore exSummary (some ⟨2024, 1, 1⟩) (some ⟨2024, 12, 31⟩) none
          none).ending_inv_vol) / 2 ∧
    (invlog_turnover exSummary (some ⟨2024, 1, 1⟩) (some ⟨2024, 12, 31⟩) none
        none).turnover_rate =
      pyRound 4
        ((turnoverCore exSummary (some ⟨2024, 1, 1⟩) (some ⟨2024, 12, 31⟩) none
            none).out_vol /
          (((turnoverCore exSummary (some ⟨2024, 1, 1⟩) (some ⟨2024, 12, 31⟩) none
              none).beginning_inv_vol +
            (turnoverCore exSummary (some ⟨2024, 1, 1⟩) (some ⟨2024, 12, 31⟩) none
              none).ending_inv_vol) / 2)) :=
  ⟨by decide,
   (C3_turnover_computation.1 exSummary (some ⟨2024, 1, 1⟩) (some ⟨2024, 12, 31⟩)
     none none (by decide)).1⟩

/-- Every produced chunk stays inside the requested span, is non-empty, and
is no wider than the limit. -/
theorem chunkLoop_bounds (W : ℤ) (hW : 0 < W) :
    ∀ (fuel : ℕ) (start fin : ℤ),
      ∀ c ∈ chunkLoop W fuel start fin,
        start ≤ c.1 ∧ c.1 < c.2 ∧ c.2 ≤ fin ∧ c.2 - c.1 ≤ W := by
  intro fuel
  induction fuel with
  | zero =>
    intro start fin c hc
    simp [chunkLoop] at hc
  | succ fuel ih =>
    intro start fin c hc
    by_cases hsf : start < fin
    · simp only [chunkLoop, if_pos hsf, List.mem_cons] at hc
      rcases hc with rfl | hc
      · refine ⟨le_refl start, lt_min (by omega) hsf, min_le_right _ _, ?_⟩
        have := min_le_left (start + W) fin
        simp only []
        omega
      · obtain ⟨h1, h2, h3, h4⟩ := ih (min (start + W) fin) fin c hc
        have hsm : start ≤ min (start + W) fin := le_min (by omega) (le_of_lt hsf)
        exact ⟨le_trans hsm h1, h2, h3, h4⟩
    · simp [chunkLoop, hsf] at hc

/-- The first chunk of a non-empty chunk list starts at the cursor. -/
theorem chunkLoop_head (W : ℤ) :
    ∀ (fuel : ℕ) (start fin : ℤ) (c : ℤ × ℤ) (l : List (ℤ × ℤ)),
      chunkLoop W fuel start fin = c :: l → c.1 = start := by
  intro fuel start fin c l h
  cases fuel with
  | zero => simp [chunkLoop] at h
  | succ fuel =>
    by_cases hsf : start < fin
    · simp only [chunkLoop, if_pos hsf, List.cons.injEq] at h
      rw [← h.1]
    · simp [chunkLoop, hsf] at h

/-- Consecutive chunks share an endpoint: each chunk's end is the next
chunk's start. -/
theorem chunkLoop_chain (W : ℤ) :
    ∀ (fuel : ℕ) (start fin : ℤ),
      List.Chain' (fun a b => a.2 = b.1) (chunkLoop W fuel start fin) := by
  intro fuel
  induction fuel with
  | zero =>
    intro start fin
    simp [chunkLoop]
  | succ fuel ih =>
    intro start fin
    by_cases hsf : start < fin
    · simp only [chunkLoop, if_pos hsf]
      rw [List.chain'_cons']
      refine ⟨?_, ih _ _⟩
      intro y hy
      cases hh : chunkLoop W fuel (min (start + W) fin) fin with
      | nil =>
        rw [hh] at hy
        simp at hy
      | cons c l =>
        rw [hh] at hy
        simp only [List.head?_cons, Option.mem_def, Option.some.injEq] at hy
        subst hy
        exact (chunkLoop_head W fuel _ fin c l hh).symm
    · simp [chunkLoop, hsf]

/-- Coverage: given enough fuel, a point lies in the requested half-open
span exactly when some chunk contains it. -/
theorem chunkLoop_cover (W : ℤ) (hW : 0 < W) :
    ∀ (fuel : ℕ) (start fin : ℤ), (fin - start).toNat ≤ fuel →
      ∀ t : ℤ, (start ≤ t ∧ t < fin) ↔
        ∃ c ∈ chunkLoop W fuel start fin, c.1 ≤ t ∧ t < c.2 := by
  intro fuel
  induction fuel with
  | zero =>
    intro start fin hf t
    constructor
    · rintro ⟨h1, h2⟩
      exfalso
      omega
    · rintro ⟨c, hc, -⟩
      simp [chunkLoop] at hc
  | succ fuel ih =>
    intro start fin hf t
    by_cases hsf : start < fin
    · have hsm : start < min (start + W) fin := lt_min (by omega) hsf
      have hmf : min (start + W) fin ≤ fin := min_le_right _ _
      have hrec := ih (min (start + W) fin) fin (by omega) t
      simp only [chunkLoop, if_pos hsf, List.mem_cons]
      constructor
      · rintro ⟨h1, h2⟩
        by_cases hm : t < min (start + W) fin
        · exact ⟨(start, min (start + W) fin), Or.inl rfl, h1, hm⟩
        · obtain ⟨c, hc, hct⟩ := hrec.mp ⟨by omega, h2⟩
          exact ⟨c, Or.inr hc, hct⟩
      · rintro ⟨c, rfl | hc, hc1, hc2⟩
        · exact ⟨hc1, lt_of_lt_of_le hc2 hmf⟩
        · have hmem := hrec.mpr ⟨c, hc, hc1, hc2⟩
          exact ⟨by omega, hmem.2⟩
    · constructor
      · rintro ⟨h1, h2⟩
        exfalso
        omega
      · rintro ⟨c, hc, -⟩
        simp [chunkLoop, hsf] at hc

/-- No overlaps: a point inside two produced chunks identifies them. -/
theorem chunkLoop_disjoint (W : ℤ) (hW : 0 < W) :
    ∀ (fuel : ℕ) (start fin : ℤ) (c1 c2 : ℤ × ℤ),
      c1 ∈ chunkLoop W fuel start fin → c2 ∈ chunkLoop W fuel start fin →
      ∀ t : ℤ, c1.1 ≤ t → t < c1.2 → c2.1 ≤ t → t < c2.2 → c1 = c2 := by
  intro fuel
  induction fuel with
  | zero =>
    intro start fin c1 c2 h1
    simp [chunkLoop] at h1
  | succ fuel ih =>
    intro start fin c1 c2 h1 h2 t ht1 ht2 ht3 ht4
    by_cases hsf : start < fin
    · simp only [chunkLoop, if_pos hsf, List.mem_cons] at h1 h2
      rcases h1 with rfl | h1 <;> rcases h2 with rfl | h2
      · rfl
      · exfalso
        have hb := (chunkLoop_bounds W hW fuel (min (start + W) fin) fin c2 h2).1
        simp only [] at ht2
        omega
      · exfalso
        have hb := (chunkLoop_bounds W hW fuel (min (start + W) fin) fin c1 h1).1
        simp only [] at ht4
        omega
      · exact ih _ _ c1 c2 h1 h2 t ht1 ht2 ht3 ht4
    · simp [chunkLoop, hsf] at h1

/-- Claim C4 (spec-modelled, the chunked fetch is absent from the source
tree): for every requested span and positive width limit, the produced
chunks lie inside the span, are each no wider than the limit, are
consecutive (each chunk's end is the next chunk's start), and their union
covers the requested span exactly, with no overlaps. -/
theorem C4_chunking_correctness :
    ∀ (W start fin : ℤ), 0 < W → start ≤ fin →
      (∀ c ∈ chunkSpans W start fin,
        start ≤ c.1 ∧ c.1 < c.2 ∧ c.2 ≤ fin ∧ c.2 - c.1 ≤ W) ∧
      List.Chain' (fun a b => a.2 = b.1) (chunkSpans W start fin) ∧
      (∀ t : ℤ, (start ≤ t ∧ t < fin) ↔
        ∃ c ∈ chunkSpans W start fin, c.1 ≤ t ∧ t < c.2) ∧
      (∀ c1 ∈ chunkSpans W start fin, ∀ c2 ∈ chunkSpans W start fin,
        ∀ t : ℤ, c1.1 ≤ t → t < c1.2 → c2.1 ≤ t → t < c2.2 → c1 = c2) := by
  intro W start fin hW hsf
  exact ⟨chunkLoop_bounds W hW _ start fin,
         chunkLoop_chain W _ start fin,
         chunkLoop_cover W hW _ start fin (le_refl _),
         fun c1 h1 c2 h2 => chunkLoop_disjoint W hW _ start fin c1 c2 h1 h2⟩

/-- Witness for C4 at the 6-month width on a concrete 463-day span: the
first produced chunk is in bounds and no wider than the limit. -/
theorem C4_chunking_correctness_witness :
    (0 : ℤ) ≤ 0 ∧ (0 : ℤ) < 15552000 ∧ (15552000 : ℤ) ≤ 40000000 ∧
      (15552000 : ℤ) - 0 ≤ sixMonthsWidth :=
  (C4_chunking_correctness sixMonthsWidth 0 40000000 (by decide) (by decide)).1
    (0, 15552000) (by decide)

/-- Whatever the source returns, the pagination loop requests consecutive
pages starting at its initial page number. -/
theorem getAllLoop_pages {α : Type} (resp : ℕ → PageResp α) :
    ∀ (fuel page : ℕ) (acc : List α) (pages : List ℕ) (res : List α) (ps : List ℕ),
      getAllLoop resp fuel page acc pages = some (res, ps) →
      ∃ m, 1 ≤ m ∧ ps = pages ++ List.range' page m := by
  intro fuel
  induction fuel with
  | zero =>
    intro page acc pages res ps h
    simp [getAllLoop] at h
  | succ fuel ih =>
    intro page acc pages res ps h
    simp only [getAllLoop] at h
    by_cases hb : (resp page).totalCount ≤ (acc ++ (resp page).data).length ∨
        (resp page).data.isEmpty = true
    · rw [if_pos hb] at h
      obtain ⟨-, h2⟩ := Prod.mk.injEq .. ▸ Option.some.inj h
      exact ⟨1, le_refl 1, h2.symm⟩
    · rw [if_neg hb] at h
      obtain ⟨m, hm, hps⟩ := ih (page + 1) _ _ res ps h
      refine ⟨m + 1, by omega, ?_⟩
      rw [hps, List.append_assoc]
      rfl

/-- Against a source that consistently reports `totalCount = N`, a finished
pagination loop has either accumulated at least `N` records or seen a page
with no records. -/
theorem getAllLoop_total {α : Type} (resp : ℕ → PageResp α) (N : ℕ)
    (hN : ∀ p, (resp p).totalCount = N) :
    ∀ (fuel page : ℕ) (acc : List α) (pages : List ℕ) (res : List α) (ps : List ℕ),
      getAllLoop resp fuel page acc pages = some (res, ps) →
      N ≤ res.length ∨ ∃ p ∈ ps, (resp p).data = [] := by
  intro fuel
  induction fuel with
  | zero =>
    intro page acc pages res ps h
    simp [getAllLoop] at h
  | succ fuel ih =>
    intro page acc pages res ps h
    simp only [getAllLoop] at h
    by_cases hb : (resp page).totalCount ≤ (acc ++ (resp page).data).length ∨
        (resp page).data.isEmpty = true
    · rw [if_pos hb] at h
      obtain ⟨h1, h2⟩ := Prod.mk.injEq .. ▸ Option.some.inj h
      rcases hb with hb | hb
      · left
        rw [← h1]
        rw [hN page] at hb
        exact hb
      · right
        exact ⟨page, by rw [← h2]; simp, List.isEmpty_iff.mp hb⟩
    · rw [if_neg hb] at h
      exact ih (page + 1) _ _ res ps h

/-- Against a faithful segment source, the pagination loop started at `page`
with `(page − 1) · s` records already accumulated returns the accumulator
extended by the whole remainder of the master list. -/
theorem getAllLoop_seg {α : Type} (L : List α) (s : ℕ) (hs : 0 < s) :
    ∀ (fuel page : ℕ) (acc : List α) (pages : List ℕ),
      1 ≤ page → acc.length = (page - 1) * s →
      L.length ≤ (page - 1) * s + fuel * s → 1 ≤ fuel →
      ∃ ps, getAllLoop (segResp L s) fuel page acc pages =
        some (acc ++ L.drop ((page - 1) * s), pages ++ ps) := by
  intro fuel
  induction fuel with
  | zero =>
    intro page acc pages _ _ _ hf
    omega
  | succ fuel ih =>
    intro page acc pages hpage hacc hlen _
    simp only [getAllLoop, segResp]
    by_cases hcase : L.length ≤ page * s
    · have hD : (L.drop ((page - 1) * s)).take s = L.drop ((page - 1) * s) := by
        apply List.take_of_length_le
        rw [List.length_drop]
        have : (page - 1) * s + s = page * s := by
          cases page with
          | zero => omega
          | succ p => simp [Nat.succ_sub_one, Nat.succ_mul]
        omega
      have hbr : (L.drop ((page - 1) * s)).length ≤ s := by
        rw [List.length_drop]
        have : (page - 1) * s + s = page * s := by
          cases page with
          | zero => omega
          | succ p => simp [Nat.succ_sub_one, Nat.succ_mul]
        omega
      have hb : L.length ≤ (acc ++ (L.drop ((page - 1) * s)).take s).length ∨
          ((L.drop ((page - 1) * s)).take s).isEmpty = true := by
        by_cases hge : (page - 1) * s ≤ L.length
        · left
          rw [List.length_append, hacc, hD, List.length_drop]
          omega
        · right
          have : L.drop ((page - 1) * s) = [] := List.drop_eq_nil_of_le (by omega)
          simp [this]
      rw [if_pos hb]
      exact ⟨[page], by rw [hD]⟩
    · have hDlen : ((L.drop ((page - 1) * s)).take s).length = s := by
        rw [List.length_take, List.length_drop]
        have : (page - 1) * s + s = page * s := by
          cases page with
          | zero => omega
          | succ p => simp [Nat.succ_sub_one, Nat.succ_mul]
        omega
      have hb : ¬(L.length ≤ (acc ++ (L.drop ((page - 1) * s)).take s).length ∨
          ((L.drop ((page - 1) * s)).take s).isEmpty = true) := by
        rintro (hb | hb)
        · rw [List.length_append, hacc, hDlen] at hb
          have : (page - 1) * s + s = page * s := by
            cases page with
            | zero => omega
            | succ p => simp [Nat.succ_sub_one, Nat.succ_mul]
          omega
        · rw [List.isEmpty_iff] at hb
          rw [hb] at hDlen
          simp at hDlen
          omega
      rw [if_neg hb]
      have hstep : (page - 1) * s + s = page * s := by
        cases page with
        | zero => omega
        | succ p => simp [Nat.succ_sub_one, Nat.succ_mul]
      have hsm : (fuel + 1) * s = fuel * s + s := Nat.succ_mul fuel s
      have hacc2 : (acc ++ (L.drop ((page - 1) * s)).take s).length = (page + 1 - 1) * s := by
        rw [List.length_append, hacc, hDlen]
        simpa using hstep
      have hfuel : 1 ≤ fuel := by
        by_contra hf0
        have hfz : fuel = 0 := by omega
        subst hfz
        omega
      obtain ⟨ps, hps⟩ := ih (page + 1) (acc ++ (L.drop ((page - 1) * s)).take s)
        (pages ++ [page]) (by omega) hacc2 (by simp only [Nat.add_sub_cancel]; omega) hfuel
      refine ⟨page :: ps, ?_⟩
      simp only [Nat.add_sub_cancel] at hps
      have hdd : (L.drop ((page - 1) * s)).drop s = L.drop (page * s) := by
        rw [List.drop_drop, hstep]
      have heq1 : (acc ++ (L.drop ((page - 1) * s)).take s) ++ L.drop (page * s) =
          acc ++ L.drop ((page - 1) * s) := by
        rw [List.append_assoc]
        congr 1
        rw [← hdd, List.take_append_drop]
      have heq2 : (pages ++ [page]) ++ ps = pages ++ page :: ps := by
        rw [List.append_assoc]
        rfl
      rw [hps, heq1, heq2]

/-- Claim C7: page requests are issued sequentially in increasing order from
page 1; against a faithful source serving a master list of `N` records in
slices of size `s` with `totalCount = N`, the fetcher returns exactly the
`N` records; and against any constant-total source, a finished fetch has
either accumulated at least the reported total or stopped at a page that
returned zero records. -/
theorem C7_pagination_completeness :
    (∀ (α : Type) (L : List α) (s fuel : ℕ), 0 < s → 1 ≤ fuel → L.length ≤ fuel * s →
      ∃ m, 1 ≤ m ∧
        get_all_products (segResp L s) fuel = some (L, List.range' 1 m)) ∧
    (∀ (α : Type) (resp : ℕ → PageResp α) (N fuel : ℕ) (res : List α) (ps : List ℕ),
      (∀ p, (resp p).totalCount = N) →
      get_all_products resp fuel = some (res, ps) →
      (∃ m, 1 ≤ m ∧ ps = List.range' 1 m) ∧
      (N ≤ res.length ∨ ∃ p ∈ ps, (resp p).data = [])) := by
  constructor
  · intro α L s fuel hs hf hlen
    obtain ⟨ps, hps⟩ := getAllLoop_seg L s hs fuel 1 [] [] (le_refl 1)
      (by simp) (by simpa using hlen) hf
    obtain ⟨m, hm, hrange⟩ := getAllLoop_pages (segResp L s) fuel 1 [] [] _ _ hps
    simp only [List.nil_append] at hrange
    refine ⟨m, hm, ?_⟩
    have hgp : get_all_products (segResp L s) fuel =
        some ([] ++ L.drop ((1 - 1) * s), [] ++ ps) := hps
    simp only [show (1 : ℕ) - 1 = 0 from rfl, Nat.zero_mul, List.drop_zero,
      List.nil_append] at hgp
    rw [hgp, hrange]
  · intro α resp N fuel res ps hN h
    constructor
    · simpa using getAllLoop_pages resp fuel 1 [] [] res ps h
    · exact getAllLoop_total resp N hN fuel 1 [] [] res ps h

/-- Witness for C7 against a concrete segment source: three records, page
size two, fetched completely over pages 1 and 2. -/
theorem C7_pagination_completeness_witness :
    get_all_products (segResp [10, 20, 30] 2) 3 = some ([10, 20, 30], List.range' 1 2) := by
  obtain ⟨m, hm, h⟩ := C7_pagination_completeness.1 ℕ [10, 20, 30] 2 3
    (by decide) (by decide) (by decide)
  have he : get_all_products (segResp [10, 20, 30] 2) 3 = some ([10, 20, 30], [1, 2]) := by
    decide
  rw [h] at he
  have hrange : List.range' 1 m = [1, 2] := congrArg Prod.snd (Option.some.inj he)
  rw [h, hrange]
  decide

/-- A list splits into the part satisfying a predicate and the rest. -/
theorem filter_length_split {α : Type} (l : List α) (p : α → Bool) :
    (l.filter p).length + (l.filter (fun a => !p a)).length = l.length := by
  induction l with
  | nil => rfl
  | cons a t ih =>
    by_cases h : p a = true <;> simp [List.filter_cons, h] <;> omega

/-- Counting a list bucket-by-bucket over a duplicate-free, complete list of
keys recovers its length (the `GROUP BY` counting argument). -/
theorem partition_count {α κ : Type} [DecidableEq κ] (f : α → κ) :
    ∀ (keys : List κ) (l : List α), keys.Nodup → (∀ a ∈ l, f a ∈ keys) →
      (keys.map (fun k => (l.filter (fun a => decide (f a = k))).length)).sum =
        l.length := by
  intro keys
  induction keys with
  | nil =>
    intro l _ hall
    cases l with
    | nil => rfl
    | cons a t => exact absurd (hall a (List.mem_cons_self a t)) (List.not_mem_nil _)
  | cons k ks ih =>
    intro l hnd hall
    have hk : k ∉ ks := (List.nodup_cons.mp hnd).1
    have hnd2 : ks.Nodup := (List.nodup_cons.mp hnd).2
    have htail : ∀ j ∈ ks,
        (l.filter (fun a => decide (f a = j))) =
          ((l.filter (fun a => !decide (f a = k))).filter
            (fun a => decide (f a = j))) := by
      intro j hj
      rw [List.filter_filter]
      apply List.filter_congr
      intro a _
      by_cases hfa : f a = j
      · have hne : ¬f a = k := by
          intro hh
          have hjk : k = j := by rw [← hh, hfa]
          exact hk (by rw [hjk]; exact hj)
        have hjk2 : ¬j = k := fun hjk3 => hne (by rw [hfa, hjk3])
        simp [hfa, hne, hjk2]
      · simp [hfa]
    have hmap : ks.map (fun j => (l.filter (fun a => decide (f a = j))).length) =
        ks.map (fun j => ((l.filter (fun a => !decide (f a = k))).filter
          (fun a => decide (f a = j))).length) := by
      apply List.map_congr_left
      intro j hj
      rw [htail j hj]
    have hmem : ∀ a ∈ l.filter (fun a => !decide (f a = k)), f a ∈ ks := by
      intro a ha
      have hal := List.mem_filter.mp ha
      have hin := hall a hal.1
      have hne : ¬f a = k := by simpa using hal.2
      rcases List.mem_cons.mp hin with h | h
      · exact absurd h hne
      · exact h
    have hih := ih (l.filter (fun a => !decide (f a = k))) hnd2 hmem
    simp only [List.map_cons, List.sum_cons, hmap, hih]
    exact filter_length_split l _

/-- The key recorded on a produced summary row is the group key it was
built from. -/
theorem rowKey_mk (products : List ProductRow) (k : Date × String × String × String)
    (rows : List EventRow) : rowKey (mkSummaryRow products k rows) = k := rfl

/-- The keys of the rebuilt summary are exactly the de-duplicated group keys
of the filtered event store. -/
theorem rebuild_keys (store : List EventRow) (products : List ProductRow) :
    (rebuild_daily_summary store products).map rowKey =
      ((store.filter rollupMatch).map groupKey).dedup := by
  unfold rebuild_daily_summary
  rw [List.map_map]
  have h : ∀ k ∈ ((store.filter rollupMatch).map groupKey).dedup,
      (rowKey ∘ fun k => mkSummaryRow products k ((store.filter rollupMatch).filter
        (fun e => decide (groupKey e = k)))) k = id k := fun k _ => rfl
  rw [List.map_congr_left h, List.map_id]

/-- Filtering the rebuilt summary on (warehouse, direction) is building rows
for the group keys with those components. -/
theorem rebuild_filter_eq (store : List EventRow) (products : List ProductRow)
    (wh dir : String) :
    (rebuild_daily_summary store products).filter
        (fun r => r.warehouse_id == wh && r.direction == dir) =
      ((((store.filter rollupMatch).map groupKey).dedup).filter
        (fun k => k.2.1 == wh && k.2.2.1 == dir)).map
        (fun k => mkSummaryRow products k ((store.filter rollupMatch).filter
          (fun e => decide (groupKey e = k)))) := by
  unfold rebuild_daily_summary
  rw [List.filter_map]
  congr 1

/-- The raw-store count of events matching a warehouse/direction with a
present display timestamp equals the count over the rollup-filtered store. -/
theorem store_filter_eq (store : List EventRow) (wh dir : String)
    (hdir : dir = "inbound" ∨ dir = "outbound") :
    store.filter (fun e => e.warehouse_id == wh && e.direction == dir &&
        e.warehouse_operation_time.isSome) =
      (store.filter rollupMatch).filter
        (fun e => e.warehouse_id == wh && e.direction == dir) := by
  rw [List.filter_filter]
  apply List.filter_congr
  intro e _
  simp only [rollupMatch]
  rcases hdir with rfl | rfl <;>
    cases e.warehouse_id == wh <;>
    cases e.direction == "inbound" <;>
    cases e.direction == "outbound" <;>
    cases e.warehouse_operation_time.isSome <;> rfl

/-- For a key whose components match the warehouse/direction restriction,
counting its group inside the restricted store equals counting it in the
whole filtered store. -/
theorem key_count_eq (F : List EventRow) (wh dir : String)
    (k : Date × String × String × String) (hk1 : k.2.1 = wh) (hk2 : k.2.2.1 = dir) :
    ((F.filter (fun e => e.warehouse_id == wh && e.direction == dir)).filter
        (fun e => decide (groupKey e = k))) =
      F.filter (fun e => decide (groupKey e = k)) := by
  rw [List.filter_filter]
  apply List.filter_congr
  intro e _
  by_cases hke : groupKey e = k
  · have h1 : e.warehouse_id = wh := by
      rw [← hk1, ← hke]
      rfl
    have h2 : e.direction = dir := by
      rw [← hk2, ← hke]
      rfl
    simp [hke, h1, h2]
  · simp [hke]

/-- Claim C2: rebuilding the daily summary from a fixed Event Store snapshot
produces exactly one row per group key (date of display timestamp, warehouse,
direction, customer code with the `UNKNOWN` sentinel) over events with
direction inbound/outbound and a present display timestamp; each row carries
the group's event count, `SUM(quantity)`, `SUM(quantity × joined unit
volume)` and distinct-SKU count; and for every (warehouse, direction) the
summed `event_count` equals the raw-store count of matching events with a
present display timestamp. -/
theorem C2_rollup_correctness :
    ∀ (store : List EventRow) (products : List ProductRow),
      ((rebuild_daily_summary store products).map rowKey).Nodup ∧
      (∀ row ∈ rebuild_daily_summary store products,
        ((store.filter rollupMatch).filter
          (fun e => decide (groupKey e = rowKey row))) ≠ [] ∧
        row.event_count = ((store.filter rollupMatch).filter
          (fun e => decide (groupKey e = rowKey row))).length ∧
        row.total_qty = sqlSum (((store.filter rollupMatch).filter
          (fun e => decide (groupKey e = rowKey row))).map EventRow.quantity) ∧
        row.total_volume_cbm = sqlSum (((store.filter rollupMatch).filter
          (fun e => decide (groupKey e = rowKey row))).map
            (fun e => e.quantity.map (fun q => (q : ℚ) * joinedVolume products e))) ∧
        row.unique_skus = (((store.filter rollupMatch).filter
          (fun e => decide (groupKey e = rowKey row))).map
            EventRow.product_barcode).dedup.length) ∧
      (∀ k : Date × String × String × String,
        (∃ e ∈ store, rollupMatch e = true ∧ groupKey e = k) ↔
        (∃ row ∈ rebuild_daily_summary store products, rowKey row = k)) ∧
      (∀ wh dir : String, dir = "inbound" ∨ dir = "outbound" →
        (((rebuild_daily_summary store products).filter
            (fun r => r.warehouse_id == wh && r.direction == dir)).map
          SummaryRow.event_count).sum =
        (store.filter (fun e => e.warehouse_id == wh && e.direction == dir &&
          e.warehouse_operation_time.isSome)).length) := by
  intro store products
  refine ⟨?_, ?_, ?_, ?_⟩
  · rw [rebuild_keys]
    exact List.nodup_dedup _
  · intro row hrow
    unfold rebuild_daily_summary at hrow
    obtain ⟨k, hk, rfl⟩ := List.mem_map.mp hrow
    refine ⟨?_, rfl, rfl, rfl, rfl⟩
    have hkm : k ∈ (store.filter rollupMatch).map groupKey := List.mem_dedup.mp hk
    obtain ⟨e, he, hek⟩ := List.mem_map.mp hkm
    apply List.ne_nil_of_mem (a := e)
    rw [List.mem_filter]
    refine ⟨he, ?_⟩
    rw [rowKey_mk]
    simp [hek]
  · intro k
    constructor
    · rintro ⟨e, he, hm, hk⟩
      have heF : e ∈ store.filter rollupMatch := List.mem_filter.mpr ⟨he, hm⟩
      have hkd : k ∈ ((store.filter rollupMatch).map groupKey).dedup :=
        List.mem_dedup.mpr (hk ▸ List.mem_map_of_mem groupKey heF)
      refine ⟨mkSummaryRow products k ((store.filter rollupMatch).filter
        (fun e => decide (groupKey e = k))), ?_, rowKey_mk products k _⟩
      unfold rebuild_daily_summary
      exact List.mem_map_of_mem _ hkd
    · rintro ⟨row, hrow, hkey⟩
      unfold rebuild_daily_summary at hrow
      obtain ⟨k2, hk2, rfl⟩ := List.mem_map.mp hrow
      rw [rowKey_mk] at hkey
      have hkm : k2 ∈ (store.filter rollupMatch).map groupKey := List.mem_dedup.mp hk2
      obtain ⟨e, he, hek⟩ := List.mem_map.mp hkm
      have hef := List.mem_filter.mp he
      exact ⟨e, hef.1, hef.2, hek.trans hkey⟩
  · intro wh dir hdir
    rw [rebuild_filter_eq store products wh dir, List.map_map]
    rw [store_filter_eq store wh dir hdir]
    have hcomp : (SummaryRow.event_count ∘ fun k =>
        mkSummaryRow products k ((store.filter rollupMatch).filter
          (fun e => decide (groupKey e = k)))) =
        fun k => ((store.filter rollupMatch).filter
          (fun e => decide (groupKey e = k))).length := rfl
    rw [hcomp]
    have hcnt : ∀ k ∈ (((store.filter rollupMatch).map groupKey).dedup).filter
        (fun k => k.2.1 == wh && k.2.2.1 == dir),
        ((store.filter rollupMatch).filter
          (fun e => decide (groupKey e = k))).length =
        (((store.filter rollupMatch).filter
          (fun e => e.warehouse_id == wh && e.direction == dir)).filter
          (fun e => decide (groupKey e = k))).length := by
      intro k hkf
      have hcond := (List.mem_filter.mp hkf).2
      have hk1 : k.2.1 = wh := by simpa using (Bool.and_elim_left hcond)
      have hk2 : k.2.2.1 = dir := by simpa using (Bool.and_elim_right hcond)
      rw [key_count_eq (store.filter rollupMatch) wh dir k hk1 hk2]
    rw [List.map_congr_left hcnt]
    apply partition_count groupKey
    · exact (List.nodup_dedup _).filter _
    · intro a ha
      have haf := List.mem_filter.mp ha
      have hag : a.warehouse_id = wh ∧ a.direction = dir := by
        have := haf.2
        constructor
        · simpa using Bool.and_elim_left this
        · simpa using Bool.and_elim_right this
      rw [List.mem_filter]
      constructor
      · exact List.mem_dedup.mpr (List.mem_map_of_mem groupKey haf.1)
      · simp [groupKey, hag.1, hag.2]

/-- Witness for C2's counting clause at a concrete store: one inbound event
with a present display timestamp at warehouse "13". -/
def exEvent : EventRow := normalizeEvent
  { ref_no := some "A1"
    product_barcode := some "X"
    warehouse_id := some (.vInt 13)
    quantity := some (.vStr "10")
    ibl_add_time := some "2024-01-01 10:00:00"
    warehouse_operation_time := some "2024-01-01 02:00:00"
    operation_type := some "上架"
    customer_code := some "C1" }

/-- Witness for C2 at the one-event store: the rollup's summed event count
for (warehouse "13", inbound) is the raw count 1. -/
theorem C2_rollup_correctness_witness :
    (((rebuild_daily_summary [exEvent] []).filter
        (fun r => r.warehouse_id == "13" && r.direction == "inbound")).map
      SummaryRow.event_count).sum =
    ([exEvent].filter (fun e => e.warehouse_id == "13" && e.direction == "inbound" &&
      e.warehouse_operation_time.isSome)).length :=
  (C2_rollup_correctness [exEvent] []).2.2.2 "13" "inbound" (Or.inl rfl)

end TurnoverModel
